import Mathlib

/-!
Shallow embedding of `main.go` of narwhal-cloud/systemctl: a lightweight
systemctl replacement.  Go strings that the program splits, replaces or
inspects character-wise are modelled as `List Char` (named `Str` below) so
that every operation is structurally recursive and computable; strings that
are only compared for equality stay `String`.  The process registry
`mapCommand : map[string]*exec.Cmd` is an association list, the filesystem
(unit-file directories, the enablement directory) and the OS (environment,
spawn results, PID liveness) are explicit oracle parameters.
-/

namespace Systemctl

/-- Go strings manipulated character-wise. -/
abbrev Str := List Char

/-- Go `strings.Split(s, sep)` for a single-character separator: splits at
every occurrence of `c`, keeping empty segments; always returns at least one
segment (`strings.Split("", ":") = [""]`). -/
def splitOnChar (c : Char) : Str → List Str
  | [] => [[]]
  | x :: xs =>
    let r := splitOnChar c xs
    if x = c then [] :: r
    else
      match r with
      | y :: ys => (x :: y) :: ys
      | [] => [[x]]

/-- Fuel-driven worker for `replaceAll`; the fuel (initially the length of the
string) only bounds the recursion and is never exhausted first for a nonempty
pattern. -/
def replaceAllAux (pat : List Char) : Nat → List Char → List Char
  | 0, s => s
  | _ + 1, [] => []
  | fuel + 1, x :: xs =>
    if pat.isPrefixOf (x :: xs) then replaceAllAux pat fuel ((x :: xs).drop pat.length)
    else x :: replaceAllAux pat fuel xs

/-- Go `strings.ReplaceAll(s, pat, "")`: removes every non-overlapping
occurrence of `pat`, scanning left to right (`main.go:270` uses it with
pattern `".service"` and empty replacement). -/
def replaceAll (pat s : List Char) : List Char := replaceAllAux pat s.length s

/-- Go `strings.HasPrefix(s, "$")` (`main.go:383`). -/
def startsWithDollar : Str → Bool
  | '$' :: _ => true
  | _ => false

/-- One option of a parsed unit file, as produced by
`unit.Deserialize` (`main.go:130-136`): a (section, name, value) triple. -/
structure UnitOption where
  sec : String
  name : String
  value : String
deriving DecidableEq

/-- `getOptions` (`main.go:139-146`): first option matching section and name,
or an error when none does. -/
def getOptions (list : List UnitOption) (sec name : String) : Except String String :=
  match list.find? (fun o => o.sec == sec && o.name == name) with
  | some o => Except.ok o.value
  | none => Except.error ("option " ++ sec ++ "." ++ name ++ " not found")

/-- `usrPath` (`main.go:27`). -/
def usrPath : String := "/etc/systemd/system"

/-- `sysPath` (`main.go:25`). -/
def sysPath : String := "/usr/lib/systemd/system"

/-- The filesystem as the daemon sees it: which service names have a unit
file in the user directory and in the system directory, and what
`os.ReadFile` + `parseSystemdService` yield for the file `find` resolves for
a service (read and parse errors are merged into the `Except`). -/
structure FS where
  usr : List Str
  sys : List Str
  readParse : Str → Except String (List UnitOption)

/-- `find` (`main.go:176-191`): user directory first, then system directory;
returns the empty string when no unit file exists. -/
def find (fs : FS) (service : Str) : String :=
  if service ∈ fs.usr then usrPath ++ "/" ++ String.mk service ++ ".service"
  else if service ∈ fs.sys then sysPath ++ "/" ++ String.mk service ++ ".service"
  else ""

/-- An `*exec.Cmd` as stored in `mapCommand`: the resolved program, argument
list and working directory, and the PID of the spawned child —
`pid = none` models `cmd.Process == nil`, i.e. `cmd.Start()` has not
succeeded for this command value. -/
structure Cmd where
  program : Str
  args : List Str
  dir : String
  pid : Option Nat
deriving DecidableEq

/-- `mapCommand : map[string]*exec.Cmd` (`main.go:33`). -/
abbrev Registry := List (Str × Cmd)

/-- Go map read `mapCommand[service]` (nil for a missing key). -/
def regGet : Registry → Str → Option Cmd
  | [], _ => none
  | (k, v) :: t, s => if k = s then some v else regGet t s

/-- Go `delete(mapCommand, service)`. -/
def regDel : Registry → Str → Registry
  | [], _ => []
  | (k, v) :: t, s => if k = s then regDel t s else (k, v) :: regDel t s

/-- Go map write `mapCommand[service] = c`. -/
def regSet (r : Registry) (s : Str) (c : Cmd) : Registry := (s, c) :: regDel r s

/-- `Enable` (`main.go:308-320`): resolve the unit file, then
`os.Symlink(path, enablePath/<service>.service)`.  The enablement directory is
modelled as the list of service names that currently have a symlink;
`os.Symlink` fails with EEXIST when the link name already exists. -/
def Enable (fs : FS) (links : List Str) (service : Str) : Except String (List Str) :=
  if find fs service = "" then Except.error "no service found"
  else if service ∈ links then Except.error "symlink: file exists"
  else Except.ok (service :: links)

/-- Removal of one directory entry, as `os.Remove` leaves the enablement
directory. -/
def removeLink : List Str → Str → List Str
  | [], _ => []
  | x :: t, s => if x = s then t else x :: removeLink t s

/-- `Disable` (`main.go:324-332`): `os.Remove` of the symlink, which fails
when no such file exists. -/
def Disable (links : List Str) (service : Str) : Except String (List Str) :=
  if service ∈ links then Except.ok (removeLink links service)
  else Except.error "remove: no such file or directory"

/-- Observable process-management side effects of `Start` and `Stop`. -/
inductive Effect
  | sigterm (service : Str)
  | waited (service : Str)
  | sigkill (service : Str)
  | spawned (program : Str) (args : List Str) (dir : String)
deriving DecidableEq

/-- `ExecStart` tokenization, `strings.Split(val, " ")` (`main.go:379`). -/
def execTokens (val : String) : List Str := splitOnChar ' ' val.toList

/-- The working directory passed to the command: `Service.WorkingDirectory`
when present and nonempty, else `/root` (`main.go:377, 394-399`; on a lookup
error `getOptions` returns the empty string, which Go's
`val2, _ := getOptions(...)` keeps). -/
def workingDirOf (opts : List UnitOption) : String :=
  let val2 := match getOptions opts "Service" "WorkingDirectory" with
    | Except.ok v => v
    | Except.error _ => ""
  if val2 ≠ "" then val2 else "/root"

/-- The argument-construction loop over `split[1:]` (`main.go:380-392`): a
token starting with `$` is replaced by `os.Getenv` of the token and skipped
when that value is empty; any other token is kept. -/
def buildCmdArgs (env : Str → Str) : List Str → List Str
  | [] => []
  | s :: rest =>
    if startsWithDollar s then
      if env s ≠ [] then env s :: buildCmdArgs env rest else buildCmdArgs env rest
    else s :: buildCmdArgs env rest

/-- Result of the synchronous part of `Start`: the returned error (if any),
the registry afterwards, and the process side effects performed. -/
structure StartResult where
  err : Option String
  reg : Registry
  effects : List Effect
deriving DecidableEq

/-- Synchronous part of `Start` (`main.go:336-438`), up to its `return`:
resolve and parse the unit file; if a registered command has a live process
handle, SIGTERM it and wait (`main.go:360-365`); read `ExecStart`
(`main.go:367-375`); build the command and write it into `mapCommand`
**before** spawning (`main.go:400`); then spawn.  `spawn` is the OS oracle
for `command.Start()`: the PID on success, the error otherwise.  The exit
watcher goroutine spawned on success is modelled separately
(`watcherRestarts`, `watcherTotalRestarts`). -/
def Start (fs : FS) (env : Str → Str) (spawn : Str → List Str → String → Except String Nat)
    (reg : Registry) (service : Str) : StartResult :=
  if find fs service = "" then ⟨some "no service found", reg, []⟩
  else
    match fs.readParse service with
    | Except.error e => ⟨some e, reg, []⟩
    | Except.ok opts =>
      let killEffects : List Effect :=
        match regGet reg service with
        | some c => if c.pid.isSome then [Effect.sigterm service, Effect.waited service] else []
        | none => []
      match getOptions opts "Service" "ExecStart" with
      | Except.error e => ⟨some e, reg, killEffects⟩
      | Except.ok val =>
        if val = "" then ⟨some "ExecStart not found", reg, killEffects⟩
        else
          let split := execTokens val
          let cmdArgs := buildCmdArgs env (split.drop 1)
          let dir := workingDirOf opts
          let prog := split.headD []
          match spawn prog cmdArgs dir with
          | Except.error e =>
            ⟨some e, regSet reg service ⟨prog, cmdArgs, dir, none⟩, killEffects⟩
          | Except.ok pid =>
            ⟨none, regSet reg service ⟨prog, cmdArgs, dir, some pid⟩,
              killEffects ++ [Effect.spawned prog cmdArgs dir]⟩

/-- Which branch of the `select` in `Stop` fires (`main.go:464-476`): the
child exits within the 5-second grace period, the child had already exited
when `Stop` ran (the `done` channel also fires immediately then), or the
timeout fires and SIGKILL is sent. -/
inductive WaitOutcome
  | graceful
  | alreadyExited
  | timeoutForced
deriving DecidableEq

/-- How a call to `Stop` ends: either the function returns (with the error
returned, the registry afterwards, and the signal side effects), or it
panics and never returns, leaving the registry untouched and killing the
daemon. -/
inductive StopBehavior
  | panicked
  | returned (err : Option String) (reg : Registry) (effects : List Effect)
deriving DecidableEq

/-- Whether the Go function actually returns to its caller. -/
def StopBehavior.returns : StopBehavior → Bool
  | StopBehavior.panicked => false
  | StopBehavior.returned _ _ _ => true

/-- `Stop` (`main.go:443-480`): error when no command is registered
(`main.go:448` checks only `command == nil`, not `command.Process`);
otherwise `command.Process.Signal(syscall.SIGTERM)` at `main.go:452` — which
dereferences a nil receiver and **panics** when the registered entry has no
process handle (`pid = none`, the state a failed spawn leaves behind, see
`Start`); otherwise SIGTERM, then wait with a 5-second timeout racing a
forced SIGKILL, and on every returning path `delete(mapCommand, service)`
(`main.go:478`). -/
def Stop (reg : Registry) (service : Str) (outcome : WaitOutcome) : StopBehavior :=
  match regGet reg service with
  | none => StopBehavior.returned (some "service is not run") reg []
  | some c =>
    match c.pid with
    | none => StopBehavior.panicked
    | some _ =>
      let effects := match outcome with
        | WaitOutcome.timeoutForced => [Effect.sigterm service, Effect.sigkill service]
        | _ => [Effect.sigterm service, Effect.waited service]
      StopBehavior.returned none (regDel reg service) effects

/-- `Status` (`main.go:484-496`): error when `find` resolves nothing;
"exited" when no command is registered, the command has no process handle,
or the PID fails the signal-0 liveness probe (`isProcessRunning`,
`main.go:500-507`, modelled by the oracle `alive`); "running" otherwise. -/
def Status (fs : FS) (alive : Nat → Bool) (reg : Registry) (service : Str) :
    Except String String :=
  if find fs service = "" then Except.error "no service found"
  else
    match regGet reg service with
    | none => Except.ok "exited"
    | some c =>
      match c.pid with
      | none => Except.ok "exited"
      | some pid => if alive pid then Except.ok "running" else Except.ok "exited"

/-- The `Service.Restart` value the exit watcher reads (`main.go:418`):
`val, _ = getOptions(...)` keeps the empty string when the option is
absent. -/
def restartPolicy (opts : List UnitOption) : String :=
  match getOptions opts "Service" "Restart" with
  | Except.ok v => v
  | Except.error _ => ""

/-- The two early returns of the exit watcher (`main.go:419-426`): policy
"always" with the registry entry cleared, or policy "on-failure" with exit
code 0, suppress the restart path. -/
def watcherSuppressed (restartVal : String) (entry : Option Cmd) (exitCode : Int) : Bool :=
  if restartVal = "always" ∧ entry = none then true
  else if restartVal = "on-failure" ∧ exitCode = 0 then true
  else false

/-- Whether the exit watcher calls `Start(service, try-1)` (`main.go:413-436`):
it does exactly when neither early return fired and the attempt budget is
still positive (`main.go:429`). -/
def watcherRestarts (restartVal : String) (entry : Option Cmd) (exitCode : Int)
    (tryBudget : Nat) : Bool :=
  if watcherSuppressed restartVal entry exitCode then false else decide (0 < tryBudget)

/-- Total number of restarts performed for a service whose every run exits
with the same policy situation (persistent failure): each watcher run either
returns early, or — when the budget is positive — restarts once with the
budget decremented by one (`main.go:428-435`). -/
def watcherTotalRestarts (restartVal : String) (entry : Option Cmd) (exitCode : Int) :
    Nat → Nat
  | 0 => 0
  | n + 1 =>
    if watcherSuppressed restartVal entry exitCode then 0
    else 1 + watcherTotalRestarts restartVal entry exitCode n

/-- Outcomes of the five engine operations, as `handleConnection` consumes
them: `none` models a nil error (success), `some e` the error text. -/
structure OpResults where
  enable : Str → Option String
  disable : Str → Option String
  start : Str → Option String
  stop : Str → Option String
  status : Str → Except String String

/-- Observable outcome of one connection: the reply written back (if any),
the engine operation dispatched with the service name handed to it (if any),
and whether the daemon process exited (the "reboot" branch). -/
structure ConnResult where
  reply : Option String
  dispatched : Option (String × Str)
  exited : Bool
deriving DecidableEq

/-- `handleConnection` (`main.go:257-304`): split the message on every colon
(`strings.Split(msg, ":")`), drop the connection when fewer than two
segments result; remove every occurrence of `".service"` from the second
segment (`strings.ReplaceAll`, `main.go:270`); switch on the first segment.
An operation that matches no case leaves `err` nil, so the final
`if err != nil ... else` writes back "success" (`main.go:297-303`). -/
def handleConnection (ops : OpResults) (msg : Str) : ConnResult :=
  match splitOnChar ':' msg with
  | op :: svcRaw :: _ =>
    let svc := replaceAll ".service".toList svcRaw
    let errToReply : Option String → Option String := fun e =>
      match e with
      | some e => some e
      | none => some "success"
    if op = "enable".toList then ⟨errToReply (ops.enable svc), some ("enable", svc), false⟩
    else if op = "disable".toList then
      ⟨errToReply (ops.disable svc), some ("disable", svc), false⟩
    else if op = "start".toList then ⟨errToReply (ops.start svc), some ("start", svc), false⟩
    else if op = "stop".toList then ⟨errToReply (ops.stop svc), some ("stop", svc), false⟩
    else if op = "status".toList then
      match ops.status svc with
      | Except.ok res => ⟨some res, some ("status", svc), false⟩
      | Except.error e => ⟨some e, some ("status", svc), false⟩
    else if op = "reboot".toList then ⟨none, none, true⟩
    else ⟨some "success", none, false⟩
  | _ => ⟨none, none, false⟩

/-- The parse that claim C6 describes: operation = text before the first
colon, service name = the entire remainder of the message, with one trailing
".service" suffix stripped. -/
def parseMsgClaimed (msg : Str) : Option (String × Str) :=
  match splitOnChar ':' msg with
  | op :: rest :: more =>
    let full := List.intercalate ":".toList (rest :: more)
    let name := if ".service".toList.isSuffixOf full then full.take (full.length - 8) else full
    some (String.mk op, name)
  | _ => none

/-- One syntactic access to the shared map `mapCommand` in `main.go`,
with whether the supervision lock `lock` is held at that program point. -/
structure RegAccess where
  line : Nat
  isWrite : Bool
  lockHeld : Bool
deriving DecidableEq

/-- Every access to `mapCommand` in `main.go`.  `Start`, `Stop` and `Status`
take `lock` on entry and hold it to the end (`defer lock.Unlock()`), which
covers lines 360, 400, 447, 478 and 491.  The read at line 419 is inside the
exit-watcher goroutine spawned at `main.go:413`: it runs after `Start` has
returned (and released the lock) and acquires no lock itself. -/
def mapCommandAccesses : List RegAccess :=
  [⟨360, false, true⟩, ⟨400, true, true⟩, ⟨419, false, false⟩,
   ⟨447, false, true⟩, ⟨478, true, true⟩, ⟨491, false, true⟩]

/-! Concrete fixtures used to evaluate the embedded operations. -/

/-- Engine oracle whose five operations all succeed. -/
def trivialOps : OpResults :=
  ⟨fun _ => none, fun _ => none, fun _ => none, fun _ => none, fun _ => Except.ok "exited"⟩

/-- A unit file with a `Restart` policy but no `ExecStart`. -/
def optsNoExec : List UnitOption := [⟨"Service", "Restart", "always"⟩]

/-- A unit file whose `ExecStart` has a fixed token and a `$`-token. -/
def optsEcho : List UnitOption := [⟨"Service", "ExecStart", "/bin/echo hi $V"⟩]

/-- A filesystem with a unit file for service `a` in the user directory,
whose content parses to an empty option list. -/
def fsUser : FS := ⟨["a".toList], [], fun _ => Except.ok []⟩

/-- Same, but the unit file parses to `optsNoExec`. -/
def fsNoExec : FS := ⟨["a".toList], [], fun _ => Except.ok optsNoExec⟩

/-- Same, but the unit file parses to `optsEcho`. -/
def fsEcho : FS := ⟨["a".toList], [], fun _ => Except.ok optsEcho⟩

/-- A registered command whose child was spawned with PID 42. -/
def cmdOld : Cmd := ⟨"/bin/x".toList, [], "/root", some 42⟩

/-- A registered command with no process handle — the registry state a
failed spawn leaves behind (`main.go:400` writes the map, `main.go:405`
fails, the entry persists with `Process == nil`). -/
def cmdNoPid : Cmd := ⟨"/bin/x".toList, [], "/root", none⟩

/-- Spawn oracle that always fails. -/
def spawnFail : Str → List Str → String → Except String Nat := fun _ _ _ => Except.error "boom"

/-- Spawn oracle that always succeeds with PID 99. -/
def spawnOk : Str → List Str → String → Except String Nat := fun _ _ _ => Except.ok 99

/-! Helper lemmas about the registry. -/

/-- After a Go-map delete, the key is gone. -/
theorem regGet_regDel_self (r : Registry) (s : Str) : regGet (regDel r s) s = none := by
  induction r with
  | nil => rfl
  | cons p t ih =>
    obtain ⟨k, v⟩ := p
    by_cases h : k = s
    · simpa [regDel, h] using ih
    · simpa [regDel, regGet, h] using ih

/-- After a Go-map write, the key maps to the written value. -/
theorem regGet_regSet_self (r : Registry) (s : Str) (c : Cmd) :
    regGet (regSet r s c) s = some c := by
  simp [regGet, regSet]

/-! Claim theorems. -/

/-- C1: when the watched child of a service exits, the watcher makes no restart
attempt if the Restart policy is "on-failure" and the exit code is 0, and none
if the policy is "always" and the registry entry has been cleared; in every
other case it falls through to the attempt-budget path, restarting exactly when
the budget is positive. -/
theorem c1_watcher_policy (opts : List UnitOption) (entry : Option Cmd) (code : Int)
    (tryBudget : Nat) :
    (restartPolicy opts = "on-failure" → code = 0 →
      watcherRestarts (restartPolicy opts) entry code tryBudget = false) ∧
    (restartPolicy opts = "always" → entry = none →
      watcherRestarts (restartPolicy opts) entry code tryBudget = false) ∧
    (¬(restartPolicy opts = "always" ∧ entry = none) →
      ¬(restartPolicy opts = "on-failure" ∧ code = 0) →
      watcherRestarts (restartPolicy opts) entry code tryBudget = decide (0 < tryBudget)) := by
  refine ⟨fun h1 h2 => ?_, fun h1 h2 => ?_, fun h1 h2 => ?_⟩ <;>
    simp [watcherRestarts, watcherSuppressed, h1, h2]

/-- Witness for C1. -/
theorem c1_watcher_policy_witness :
    watcherRestarts (restartPolicy [⟨"Service", "Restart", "on-failure"⟩]) none 0 5 = false ∧
    watcherRestarts (restartPolicy [⟨"Service", "Restart", "always"⟩]) none 7 5 = false ∧
    watcherRestarts (restartPolicy []) (some cmdOld) 0 5 = decide (0 < 5) :=
  ⟨(c1_watcher_policy _ none 0 5).1 (by decide) rfl,
   (c1_watcher_policy _ none 7 5).2.1 (by decide) rfl,
   (c1_watcher_policy _ (some cmdOld) 0 5).2.2 (by decide) (by decide)⟩

/-- C2: the restart recursion carries the budget decremented by one on each
retry and performs no restart once the budget is zero, so a persistently
failing service started with budget n is restarted at most n times. -/
theorem c2_restart_budget (v : String) (e : Option Cmd) (c : Int) (n : Nat) :
    watcherTotalRestarts v e c n ≤ n ∧
    watcherTotalRestarts v e c 0 = 0 ∧
    (watcherSuppressed v e c = false →
      watcherTotalRestarts v e c (n + 1) = 1 + watcherTotalRestarts v e c n) := by
  refine ⟨?_, rfl, fun h => ?_⟩
  · induction n with
    | zero => simp [watcherTotalRestarts]
    | succ m ih =>
      simp only [watcherTotalRestarts]
      split
      · omega
      · omega
  · simp [watcherTotalRestarts, h]

/-- Witness for C2. -/
theorem c2_restart_budget_witness :
    watcherTotalRestarts "" none 1 5 ≤ 5 ∧
    watcherTotalRestarts "" none 1 (4 + 1) = 1 + watcherTotalRestarts "" none 1 4 :=
  ⟨(c2_restart_budget "" none 1 5).1, (c2_restart_budget "" none 1 4).2.2 (by decide)⟩

/-- C3 counterexample: a process **is** registered for "a" — the entry a
failed spawn leaves behind, with no process handle — yet Stop does not
return at all: `command.Process.Signal` at `main.go:452` dereferences the
nil `*os.Process` and panics, so no error is returned and the registry is
not cleared, refuting "when a process is registered, after stop returns the
registry holds no entry". -/
theorem c3_stop_counterexample :
    regGet [("a".toList, cmdNoPid)] "a".toList = some cmdNoPid ∧
    Stop [("a".toList, cmdNoPid)] "a".toList WaitOutcome.graceful = StopBehavior.panicked ∧
    (Stop [("a".toList, cmdNoPid)] "a".toList WaitOutcome.graceful).returns = false := by
  decide

/-- C3 amended: Stop returns an error exactly when no command is registered
for the name.  When the registered command has a live process handle (its
spawn succeeded), Stop returns success with the entry deleted — on every
wait outcome (graceful exit, already exited, or timeout-forced kill) the
registry holds no entry afterwards.  But on a registered entry with no
process handle (left by a failed spawn) Stop panics on the nil handle and
never returns. -/
theorem c3_stop_amended (reg : Registry) (service : Str) (outcome : WaitOutcome) :
    ((∃ e reg1 effects, Stop reg service outcome = StopBehavior.returned (some e) reg1 effects)
      ↔ regGet reg service = none) ∧
    (∀ c pid, regGet reg service = some c → c.pid = some pid →
      ∃ effects, Stop reg service outcome = StopBehavior.returned none (regDel reg service) effects
        ∧ regGet (regDel reg service) service = none) ∧
    (∀ c, regGet reg service = some c → c.pid = none →
      Stop reg service outcome = StopBehavior.panicked) := by
  refine ⟨⟨?_, ?_⟩, ?_, ?_⟩
  · intro hex
    obtain ⟨e, reg1, effects, hEq⟩ := hex
    cases h : regGet reg service with
    | none => rfl
    | some c =>
      cases hp : c.pid with
      | none => simp [Stop, h, hp] at hEq
      | some pid => simp [Stop, h, hp] at hEq
  · intro h
    exact ⟨"service is not run", reg, [], by simp [Stop, h]⟩
  · intro c pid h hp
    cases outcome with
    | graceful =>
      exact ⟨[Effect.sigterm service, Effect.waited service], by simp [Stop, h, hp],
        regGet_regDel_self reg service⟩
    | alreadyExited =>
      exact ⟨[Effect.sigterm service, Effect.waited service], by simp [Stop, h, hp],
        regGet_regDel_self reg service⟩
    | timeoutForced =>
      exact ⟨[Effect.sigterm service, Effect.sigkill service], by simp [Stop, h, hp],
        regGet_regDel_self reg service⟩
  · intro c h hp
    simp [Stop, h, hp]

/-- Witness for C3's amended theorem. -/
theorem c3_stop_amended_witness :
    (∃ effects, Stop [("a".toList, cmdOld)] "a".toList WaitOutcome.timeoutForced
        = StopBehavior.returned none (regDel [("a".toList, cmdOld)] "a".toList) effects
      ∧ regGet (regDel [("a".toList, cmdOld)] "a".toList) "a".toList = none) ∧
    (∃ e reg1 effects, Stop ([] : Registry) "b".toList WaitOutcome.graceful
        = StopBehavior.returned (some e) reg1 effects) ∧
    Stop [("b".toList, cmdNoPid)] "b".toList WaitOutcome.alreadyExited
        = StopBehavior.panicked :=
  ⟨(c3_stop_amended [("a".toList, cmdOld)] "a".toList WaitOutcome.timeoutForced).2.1
      cmdOld 42 rfl rfl,
   (c3_stop_amended ([] : Registry) "b".toList WaitOutcome.graceful).1.mpr rfl,
   (c3_stop_amended [("b".toList, cmdNoPid)] "b".toList WaitOutcome.alreadyExited).2.2
      cmdNoPid rfl rfl⟩

/-- C4: Status errors exactly when the unit file resolves in neither service
directory; otherwise it answers "running" iff a registry entry exists whose
PID passes the OS liveness probe, and "exited" in every other case; in
particular a name with no registry entry is never reported "running". -/
theorem c4_status_characterization (fs : FS) (alive : Nat → Bool) (reg : Registry) (svc : Str) :
    ((∃ e, Status fs alive reg svc = Except.error e) ↔ find fs svc = "") ∧
    (Status fs alive reg svc = Except.ok "running" ↔
      find fs svc ≠ "" ∧
        ∃ c pid, regGet reg svc = some c ∧ c.pid = some pid ∧ alive pid = true) ∧
    (find fs svc ≠ "" →
      Status fs alive reg svc = Except.ok "running" ∨
        Status fs alive reg svc = Except.ok "exited") ∧
    (regGet reg svc = none → Status fs alive reg svc ≠ Except.ok "running") := by
  by_cases hf : find fs svc = ""
  · exact ⟨⟨fun _ => hf, fun _ => ⟨"no service found", by simp [Status, hf]⟩⟩,
      by simp [Status, hf], fun h => absurd hf h, fun _ => by simp [Status, hf]⟩
  · cases hreg : regGet reg svc with
    | none =>
      refine ⟨?_, ?_, ?_, ?_⟩ <;> simp [Status, hf, hreg]
    | some c =>
      cases hp : c.pid with
      | none =>
        refine ⟨?_, ?_, ?_, ?_⟩ <;> simp [Status, hf, hreg, hp]
      | some pid =>
        cases ha : alive pid with
        | false => refine ⟨?_, ?_, ?_, ?_⟩ <;> simp [Status, hf, hreg, hp, ha]
        | true => refine ⟨?_, ?_, ?_, ?_⟩ <;> simp [Status, hf, hreg, hp, ha]

/-- Witness for C4. -/
theorem c4_status_characterization_witness :
    Status fsEcho (fun _ => true) [] "a".toList ≠ Except.ok "running" ∧
    (∃ e, Status fsEcho (fun _ => true) [] "zz".toList = Except.error e) ∧
    (Status fsEcho (fun _ => true) [] "a".toList = Except.ok "running" ∨
      Status fsEcho (fun _ => true) [] "a".toList = Except.ok "exited") :=
  ⟨(c4_status_characterization fsEcho _ [] _).2.2.2 rfl,
   (c4_status_characterization fsEcho _ [] _).1.mpr (by decide),
   (c4_status_characterization fsEcho _ [] _).2.2.1 (by decide)⟩

/-- C5 counterexample: the well-delimited message "frobnicate:foo" carries an
unrecognized operation, yet the handler does not close the connection
silently — it writes the reply "success" back to the client. -/
theorem c5_unknown_op_counterexample :
    (handleConnection trivialOps "frobnicate:foo".toList).reply = some "success" ∧
    ¬(handleConnection trivialOps "frobnicate:foo".toList).reply = none := by decide

/-- C5 amended: for every well-delimited message whose operation field is not
one of the recognized operations, the handler dispatches nothing to the
engine, does not exit, and replies with the literal string "success" (the
`err` variable is still nil when the final reply branch runs). -/
theorem c5_unknown_op_amended (ops : OpResults) (msg : Str) (op svcRaw : Str)
    (rest : List Str) (hsplit : splitOnChar ':' msg = op :: svcRaw :: rest)
    (h1 : op ≠ "enable".toList) (h2 : op ≠ "disable".toList) (h3 : op ≠ "start".toList)
    (h4 : op ≠ "stop".toList) (h5 : op ≠ "status".toList) (h6 : op ≠ "reboot".toList) :
    handleConnection ops msg = ⟨some "success", none, false⟩ := by
  simp only [handleConnection, hsplit]
  rw [if_neg h1, if_neg h2, if_neg h3, if_neg h4, if_neg h5, if_neg h6]

/-- Witness for C5's amended theorem. -/
theorem c5_unknown_op_amended_witness :
    handleConnection trivialOps "restart:foo".toList = ⟨some "success", none, false⟩ :=
  c5_unknown_op_amended trivialOps "restart:foo".toList "restart".toList "foo".toList []
    (by decide) (by decide) (by decide) (by decide) (by decide) (by decide) (by decide)

/-- C6 counterexample: for the message "start:a.serviceb:c" the claim's parse
(first-colon split, trailing ".service" suffix strip) yields the service name
"a.serviceb:c", but the handler dispatches "ab": it keeps only the second
colon-separated segment and removes the non-trailing ".service" occurrence
inside it. -/
theorem c6_parse_counterexample :
    (handleConnection trivialOps "start:a.serviceb:c".toList).dispatched
        = some ("start", "ab".toList) ∧
    parseMsgClaimed "start:a.serviceb:c".toList = some ("start", "a.serviceb:c".toList) ∧
    ¬("ab".toList = "a.serviceb:c".toList) := by decide

/-- C6 amended: the handler splits the message on every colon and drops the
connection with no response when fewer than two segments result; otherwise
the operation is the first segment and the service name is the second
segment (text after a second colon is discarded) with every occurrence of
".service" removed before dispatch. -/
theorem c6_parse_amended (ops : OpResults) (msg : Str) :
    ((splitOnChar ':' msg).length < 2 → handleConnection ops msg = ⟨none, none, false⟩) ∧
    (∀ op svcRaw rest, splitOnChar ':' msg = op :: svcRaw :: rest →
      op ∈ ["enable".toList, "disable".toList, "start".toList, "stop".toList,
        "status".toList] →
      (handleConnection ops msg).dispatched
        = some (String.mk op, replaceAll ".service".toList svcRaw)) := by
  constructor
  · intro hlen
    cases hs : splitOnChar ':' msg with
    | nil => simp [handleConnection, hs]
    | cons a t =>
      cases t with
      | nil => simp [handleConnection, hs]
      | cons b t2 => rw [hs] at hlen; simp at hlen; omega
  · intro op svcRaw rest hs hmem
    simp only [List.mem_cons, List.mem_singleton] at hmem
    rcases hmem with h | h | h | h | h | h
    · subst h; simp [handleConnection, hs]
    · subst h; simp [handleConnection, hs]
    · subst h; simp [handleConnection, hs]
    · subst h; simp [handleConnection, hs]
    · subst h
      simp only [handleConnection, hs]
      cases hst : ops.status (replaceAll ".service".toList svcRaw) <;> simp [hst]
    · exact absurd h (by simp)

/-- Witness for C6's amended theorem. -/
theorem c6_parse_amended_witness :
    (handleConnection trivialOps "stop:x.service.service:y".toList).dispatched
        = some ("stop", "x".toList) ∧
    handleConnection trivialOps "nocolon".toList = ⟨none, none, false⟩ :=
  ⟨(c6_parse_amended trivialOps "stop:x.service.service:y".toList).2
      "stop".toList "x.service.service".toList ["y".toList] (by decide) (by decide),
   (c6_parse_amended trivialOps "nocolon".toList).1 (by decide)⟩

/-- C7: the argument list `Start` builds from `ExecStart` is exactly the token
list after the program token, with every token beginning with "$" replaced by
the environment value looked up for it — dropped when that value is empty,
never kept literally — and every other token kept as is. -/
theorem c7_execstart_dollar_tokens (env : Str → Str) (val : String) :
    buildCmdArgs env ((execTokens val).drop 1)
      = ((execTokens val).drop 1).filterMap (fun s =>
          if startsWithDollar s then (if env s = [] then none else some (env s))
          else some s) := by
  generalize (execTokens val).drop 1 = toks
  induction toks with
  | nil => rfl
  | cons s rest ih =>
    simp only [buildCmdArgs, List.filterMap_cons]
    by_cases h : startsWithDollar s
    · by_cases h2 : env s = []
      · simp [h, h2, ih]
      · simp [h, h2, ih]
    · simp at h
      simp [h, ih]

/-- C8 counterexample: service "a" resolves (its unit file exists in the user
directory), yet with an enablement symlink already present Enable returns an
error — refuting "returns an error if and only if the unit file cannot be
resolved". -/
theorem c8_enable_counterexample :
    Enable fsUser ["a".toList] "a".toList = Except.error "symlink: file exists" ∧
    ¬(find fsUser "a".toList = "") := ⟨rfl, by decide⟩

/-- C8 amended: Enable errors iff the unit file cannot be resolved **or the
enablement symlink already exists** (os.Symlink fails with EEXIST); on
success the symlink is present.  Disable errors iff no symlink exists, and
enable followed by disable leaves the symlink absent. -/
theorem c8_enable_disable (fs : FS) (links : List Str) (svc : Str) :
    ((∃ e, Enable fs links svc = Except.error e) ↔ (find fs svc = "" ∨ svc ∈ links)) ∧
    (∀ links1, Enable fs links svc = Except.ok links1 → svc ∈ links1) ∧
    ((∃ e, Disable links svc = Except.error e) ↔ svc ∉ links) ∧
    (∀ links1 links2, Enable fs links svc = Except.ok links1 →
      Disable links1 svc = Except.ok links2 → svc ∉ links2) := by
  by_cases hf : find fs svc = ""
  · refine ⟨by simp [Enable, hf], ?_, ?_, ?_⟩
    · intro links1 h
      simp [Enable, hf] at h
    · by_cases hl : svc ∈ links <;> simp [Disable, hl]
    · intro links1 links2 h
      simp [Enable, hf] at h
  · by_cases hl : svc ∈ links
    · refine ⟨by simp [Enable, hf, hl], ?_, by simp [Disable, hl], ?_⟩
      · intro links1 h
        simp [Enable, hf, hl] at h
      · intro links1 links2 h
        simp [Enable, hf, hl] at h
    · refine ⟨by simp [Enable, hf, hl], ?_, by simp [Disable, hl], ?_⟩
      · intro links1 h
        simp only [Enable, if_neg hf, if_neg hl, Except.ok.injEq] at h
        subst h
        exact List.mem_cons_self svc links
      · intro links1 links2 h h2
        simp only [Enable, if_neg hf, if_neg hl, Except.ok.injEq] at h
        subst h
        simp only [Disable, List.mem_cons, true_or, if_true, if_pos, Except.ok.injEq,
          removeLink, if_pos rfl] at h2
        subst h2
        exact hl

/-- Witness for C8's amended theorem. -/
theorem c8_enable_disable_witness :
    ¬("a".toList ∈ ([] : List Str)) ∧ (∃ e, Disable [] "a".toList = Except.error e) :=
  ⟨(c8_enable_disable fsUser [] "a".toList).2.2.2 ["a".toList] [] rfl rfl,
   (c8_enable_disable fsUser [] "a".toList).2.2.1.mpr (by decide)⟩

/-- C9: refuted on the code.  Of the six accesses to `mapCommand` in
`main.go`, the exit watcher's read at line 419 runs in the watcher goroutine
after `Start` has released the supervision lock and acquires no lock itself:
not every read of the registry happens under the lock. -/
theorem c9_unlocked_watcher_read :
    (⟨419, false, false⟩ : RegAccess) ∈ mapCommandAccesses ∧
    ∃ a ∈ mapCommandAccesses, a.lockHeld = false := by decide

/-- C10: Start is not atomic on error.  If a registered command with a live
process handle exists and the unit file parses but has no usable ExecStart,
Start signals and waits on the old process, returns an error, and leaves the
registry still mapping the name to that (now dead) command.  If instead
spawning the new child fails, Start returns the spawn error with the registry
already mapping the name to the never-launched command (`pid = none`). -/
theorem c10_start_error_nonatomic (fs : FS) (env : Str → Str)
    (spawn : Str → List Str → String → Except String Nat) (reg : Registry) (svc : Str) :
    (∀ c opts, find fs svc ≠ "" → fs.readParse svc = Except.ok opts →
      regGet reg svc = some c → c.pid.isSome →
      ((∃ e, getOptions opts "Service" "ExecStart" = Except.error e) ∨
        getOptions opts "Service" "ExecStart" = Except.ok "") →
      (Start fs env spawn reg svc).err.isSome ∧
        regGet (Start fs env spawn reg svc).reg svc = some c ∧
        Effect.sigterm svc ∈ (Start fs env spawn reg svc).effects ∧
        Effect.waited svc ∈ (Start fs env spawn reg svc).effects) ∧
    (∀ opts val e, find fs svc ≠ "" → fs.readParse svc = Except.ok opts →
      getOptions opts "Service" "ExecStart" = Except.ok val → val ≠ "" →
      spawn ((execTokens val).headD []) (buildCmdArgs env ((execTokens val).drop 1))
          (workingDirOf opts) = Except.error e →
      (Start fs env spawn reg svc).err = some e ∧
        ∃ cmd, regGet (Start fs env spawn reg svc).reg svc = some cmd ∧ cmd.pid = none) := by
  constructor
  · intro c opts hfind hparse hreg hpid hexe
    rcases hexe with ⟨e, hexe⟩ | hexe
    · simp [Start, if_neg hfind, hparse, hreg, hpid, hexe]
    · simp [Start, if_neg hfind, hparse, hreg, hpid, hexe]
  · intro opts val e hfind hparse hexe hval hspawn
    simp only [Start, if_neg hfind, hparse, hexe, if_neg hval, hspawn]
    exact ⟨by trivial, ⟨_, regGet_regSet_self reg svc _, rfl⟩⟩

/-- Witness for C10. -/
theorem c10_start_error_nonatomic_witness :
    ((Start fsNoExec (fun _ => []) spawnOk [("a".toList, cmdOld)] "a".toList).err.isSome ∧
      regGet (Start fsNoExec (fun _ => []) spawnOk [("a".toList, cmdOld)] "a".toList).reg
          "a".toList = some cmdOld ∧
      Effect.sigterm "a".toList
          ∈ (Start fsNoExec (fun _ => []) spawnOk [("a".toList, cmdOld)] "a".toList).effects ∧
      Effect.waited "a".toList
          ∈ (Start fsNoExec (fun _ => []) spawnOk [("a".toList, cmdOld)] "a".toList).effects) ∧
    ((Start fsEcho (fun _ => []) spawnFail [] "a".toList).err = some "boom" ∧
      ∃ cmd, regGet (Start fsEcho (fun _ => []) spawnFail [] "a".toList).reg "a".toList
          = some cmd ∧ cmd.pid = none) :=
  ⟨(c10_start_error_nonatomic fsNoExec (fun _ => []) spawnOk [("a".toList, cmdOld)]
      "a".toList).1 cmdOld optsNoExec (by decide) rfl rfl rfl
      (Or.inl ⟨"option Service.ExecStart not found", rfl⟩),
   (c10_start_error_nonatomic fsEcho (fun _ => []) spawnFail [] "a".toList).2 optsEcho
      "/bin/echo hi $V" "boom" (by decide) rfl rfl (by decide) rfl⟩

end Systemctl
